import Mathlib

/-!
Verification of the output-audio playback scheduler of
`src/services/geminiLive.ts` (class `GeminiLiveService`) and of the
marker-line parsing in the map service (`askForDirections`).

Times are modelled as rationals: the source uses the (real-valued)
`AudioContext` clock, but every operation performed on times is order
and `+`/`max` arithmetic, which `Rat` captures exactly and executably.
-/

namespace GeminiLive

/-- An `AudioBufferSourceNode` created and scheduled by `handleMessage`
(`src/services/geminiLive.ts` lines 111-119): it records the start time
passed to `source.start` (line 115) and the duration of the attached
buffer (line 116).  `id` distinguishes distinct nodes. -/
structure Source where
  id : Nat
  startAt : ℚ
  duration : ℚ
  deriving DecidableEq, Repr

/-- The mutable state of `GeminiLiveService` relevant to audio output:
`nextStartTime` (line 23), the `audioSources` set (line 24, insertion
order kept as a list; nodes are fresh so no duplicates arise), whether
`this.outputAudioContext` is non-null (assigned in `connect`, line 32,
and never assigned back to null), and whether that context has been
closed (`disconnect`, line 171, closes it without nulling the field).
`stopCalls` logs every node on which `source.stop()` was invoked
(line 140).  `nextId` supplies fresh node ids. -/
structure SchedulerState where
  nextStartTime : ℚ
  audioSources : List Source
  stopCalls : List Source
  hasOutputCtx : Bool
  ctxClosed : Bool
  nextId : Nat
  deriving DecidableEq, Repr

/-- The state right after the constructor (line 23: `nextStartTime = 0`,
line 24: empty set) and `connect` (line 32: output context created). -/
def initState : SchedulerState :=
  { nextStartTime := 0, audioSources := [], stopCalls := [],
    hasOutputCtx := true, ctxClosed := false, nextId := 0 }

/-- The audio-output part of `handleMessage` (lines 104-122), i.e. the
`enqueueAndSchedule` operation of the spec.  `d` is the decoded buffer
duration and `now` the value of `outputAudioContext.currentTime` at the
call.  Guarded by `audioData && this.outputAudioContext` (line 105).
Line 106 sets `nextStartTime = max(nextStartTime, currentTime)`; the
node is then created and started at `nextStartTime` (line 115), the
cursor advances by the duration (line 116) and the node joins the set
(line 118).  When the context has been closed by `disconnect`, nothing
in src/ or in the spec fixes the fate of lines 107-121
(`decodeAudioData` comes from utils/audioUtils, a repository file not
under src/, and the closed-context behaviour of the node calls is
owned by the browser): this definition takes the aborting resolution,
in which only the unconditional line-106 cursor update happens;
`handleAudioDataClosed` below covers both resolutions, and the one
claim about enqueues on a closed context quantifies over both, while
every other claim either hypothesises an open context or holds under
either resolution.  Returns the new state and the start time handed
to `source.start`, if any. -/
def handleAudioData (d now : ℚ) (s : SchedulerState) : SchedulerState × Option ℚ :=
  if s.hasOutputCtx then
    let nst := max s.nextStartTime now
    if s.ctxClosed then
      ({ s with nextStartTime := nst }, none)
    else
      let src : Source := { id := s.nextId, startAt := nst, duration := d }
      ({ s with
          nextStartTime := nst + d,
          audioSources := s.audioSources ++ [src],
          nextId := s.nextId + 1 },
        some nst)
  else (s, none)

/-- Modelled from the spec: lines 104-122 on a closed-but-non-null
output context, parametric in the unresolved continuation.  The decode
step (line 109) is `decodeAudioData` from utils/audioUtils, repository
code absent from src/; the spec describes decode only as
`decode(rawBytes) -> AudioSegment`, failing on malformed input, and
fixes neither its interaction with a closed context nor the behaviour
of `createBufferSource`/`start`/`add` there.  `completes = true` is
the resolution in which lines 107-121 run to completion (the node is
created, started at the cursor and added, and the cursor advances by
the duration); `completes = false` is the resolution in which the
handler aborts after the unconditional line-106 cursor update.  The
line-105 guard and line 106 itself are common to both. -/
def handleAudioDataClosed (completes : Bool) (d now : ℚ) (s : SchedulerState) :
    SchedulerState × Option ℚ :=
  if s.hasOutputCtx then
    let nst := max s.nextStartTime now
    if completes then
      let src : Source := { id := s.nextId, startAt := nst, duration := d }
      ({ s with
          nextStartTime := nst + d,
          audioSources := s.audioSources ++ [src],
          nextId := s.nextId + 1 },
        some nst)
    else
      ({ s with nextStartTime := nst }, none)
  else (s, none)

/-- On a closed context, `handleAudioData` is the aborting resolution
of `handleAudioDataClosed`. -/
lemma handleAudioData_eq_closed (d now : ℚ) (s : SchedulerState)
    (h : s.ctxClosed = true) :
    handleAudioData d now s = handleAudioDataClosed false d now s := by
  by_cases h1 : s.hasOutputCtx = true
  · simp [handleAudioData, handleAudioDataClosed, h, h1]
  · have h1' : s.hasOutputCtx = false := by simpa using h1
    simp [handleAudioData, handleAudioDataClosed, h1']

/-- `stopAudioOutput` (lines 138-146), i.e. the `interrupt()` operation
of the spec: `source.stop()` on every member of the set (line 140,
logged in `stopCalls`), `clear()` (line 142), and, when the output
context exists, `nextStartTime = currentTime` (lines 143-145). -/
def stopAudioOutput (now : ℚ) (s : SchedulerState) : SchedulerState :=
  { s with
      stopCalls := s.stopCalls ++ s.audioSources,
      audioSources := [],
      nextStartTime := if s.hasOutputCtx then now else s.nextStartTime }

/-- The `onended` callback installed at line 119: the finished node
deletes itself from the set. -/
def onEnded (id : Nat) (s : SchedulerState) : SchedulerState :=
  { s with audioSources := s.audioSources.filter (fun src => src.id ≠ id) }

/-- `disconnect` (lines 159-189), i.e. the `reset()` teardown of the
spec: the output context is closed (line 171) but the field is not
nulled, `audioSources` is not touched and no `source.stop()` happens,
and `nextStartTime` is set to 0 (line 188). -/
def disconnect (s : SchedulerState) : SchedulerState :=
  { s with
      ctxClosed := s.ctxClosed || s.hasOutputCtx,
      nextStartTime := 0 }

/-- The operation the spec text claims `reset()` is equivalent to:
`interrupt()` followed by setting `nextStartTime` to 0.  This
definition follows the spec wording, to be compared with
`disconnect`. -/
def interruptThenZero (now : ℚ) (s : SchedulerState) : SchedulerState :=
  { stopAudioOutput now s with nextStartTime := 0 }

/-- `connect` (lines 30-32): a fresh output context is created and
assigned; `nextStartTime` and `audioSources` are not touched. -/
def connect (s : SchedulerState) : SchedulerState :=
  { s with hasOutputCtx := true, ctxClosed := false }

/-- The events the scheduler state reacts to. -/
inductive Event where
  | enqueue (d : ℚ)
  | ended (id : Nat)
  | interrupt
  | reset
  | connect
  deriving DecidableEq, Repr

/-- One scheduler step: the event together with the device-clock value
`now` read by the operation (irrelevant for `ended`, `reset` and
`connect`). -/
def step (s : SchedulerState) (now : ℚ) : Event → SchedulerState
  | Event.enqueue d => (handleAudioData d now s).1
  | Event.ended id => onEnded id s
  | Event.interrupt => stopAudioOutput now s
  | Event.reset => disconnect s
  | Event.connect => connect s

/-- Run a trace of (clock value, event) pairs from a state. -/
def execTrace (s : SchedulerState) : List (ℚ × Event) → SchedulerState
  | [] => s
  | p :: tr => execTrace (step s p.1 p.2) tr

/-- Enqueue a list of segment durations back-to-back at a fixed clock
value `now`, collecting the start time of each call. -/
def enqueueSeq (now : ℚ) (s : SchedulerState) : List ℚ → SchedulerState × List (Option ℚ)
  | [] => (s, [])
  | d :: ds =>
    let r := handleAudioData d now s
    let r2 := enqueueSeq now r.1 ds
    (r2.1, r.2 :: r2.2)

/-- Claim C1: enqueues performed back-to-back with no device-clock
advance are gap-free: for any state with a live output context, two
consecutive `handleAudioData` calls at the same clock value give the
second segment the start time of the first plus its duration (this
covers every adjacent pair of any back-to-back sequence, since the
state is arbitrary); and the concrete scenario: three segments of
durations 1, 0.5 and 2 enqueued at clock 10 from the initial state
start at 10, 11 and 11.5 and leave `nextStartTime` = 13.5. -/
theorem claim1_backlog_gapless :
    (∀ (s : SchedulerState) (t d1 d2 : ℚ),
      s.hasOutputCtx = true → s.ctxClosed = false → 0 ≤ d1 →
      ∃ a, (handleAudioData d1 t s).2 = some a ∧
        (handleAudioData d2 t (handleAudioData d1 t s).1).2 = some (a + d1)) ∧
    ((enqueueSeq 10 initState [1, 1/2, 2]).2
        = [some 10, some 11, some (23/2)] ∧
      (enqueueSeq 10 initState [1, 1/2, 2]).1.nextStartTime = 27/2) := by
  constructor
  · intro s t d1 d2 h1 h2 hd
    refine ⟨max s.nextStartTime t, ?_, ?_⟩
    · simp [handleAudioData, h1, h2]
    · have ht : t ≤ max s.nextStartTime t + d1 :=
        le_add_of_le_of_nonneg (le_max_right _ _) hd
      simp [handleAudioData, h1, h2]
      exact ht
  · constructor <;> norm_num [enqueueSeq, handleAudioData, initState, max_def]

/-- Claim C1 witness: the general part instantiated at the initial
state, clock 10, durations 1 and 2. -/
theorem claim1_backlog_gapless_witness :
    ∃ a, (handleAudioData 1 10 initState).2 = some a ∧
      (handleAudioData 2 10 (handleAudioData 1 10 initState).1).2 = some (a + 1) :=
  claim1_backlog_gapless.1 initState 10 1 2 rfl rfl (by norm_num)

/-- Claim C2: when the device clock has advanced past the stored
cursor, the newly enqueued segment starts at the clock value, not at
the stale cursor; and the concrete scenario: a segment of duration 1
started at clock 10 followed by an enqueue at clock 12 gives the
second segment start time 12, not 11. -/
theorem claim2_no_drift_into_past :
    (∀ (s : SchedulerState) (now d : ℚ),
      s.hasOutputCtx = true → s.ctxClosed = false →
      s.nextStartTime ≤ now → (handleAudioData d now s).2 = some now) ∧
    ((handleAudioData 1 10 initState).2 = some 10 ∧
      (handleAudioData 1 12 (handleAudioData 1 10 initState).1).2 = some 12 ∧
      (handleAudioData 1 12 (handleAudioData 1 10 initState).1).2 ≠ some 11) := by
  constructor
  · intro s now d h1 h2 hle
    simp [handleAudioData, h1, h2]
    exact hle
  · refine ⟨?_, ?_, ?_⟩ <;> norm_num [handleAudioData, initState, max_def]

/-- Claim C2 witness: the general part instantiated at the initial
state, cursor 0 ≤ clock 7. -/
theorem claim2_no_drift_into_past_witness :
    (handleAudioData 3 7 initState).2 = some 7 :=
  claim2_no_drift_into_past.1 initState 7 3 rfl rfl (by norm_num [initState])

/-- Claim C3: after `stopAudioOutput` (the interrupt operation) at
clock `now`, every node that was in the active set has had `stop`
called on it, the active set is empty, `nextStartTime` equals the
clock value read by the interrupt, and a subsequent enqueue at any
later clock value `now2` computes its start time from the
post-interrupt clock, namely `now2` itself. -/
theorem claim3_interrupt_clears_and_resets :
    ∀ (s : SchedulerState) (now now2 d : ℚ),
      s.hasOutputCtx = true → s.ctxClosed = false → now ≤ now2 →
      (∀ src ∈ s.audioSources, src ∈ (stopAudioOutput now s).stopCalls) ∧
      (stopAudioOutput now s).audioSources = [] ∧
      (stopAudioOutput now s).nextStartTime = now ∧
      (handleAudioData d now2 (stopAudioOutput now s)).2 = some now2 := by
  intro s now now2 d h1 h2 hle
  refine ⟨?_, rfl, by simp [stopAudioOutput, h1], ?_⟩
  · intro src hsrc
    simp [stopAudioOutput]
    exact Or.inr hsrc
  · simp [handleAudioData, stopAudioOutput, h1, h2]
    exact hle

/-- Claim C3 witness: instantiated at a state holding one active
source, interrupt at clock 20, enqueue at clock 21. -/
theorem claim3_interrupt_clears_and_resets_witness :
    (∀ src ∈ (handleAudioData 1 10 initState).1.audioSources,
        src ∈ (stopAudioOutput 20 (handleAudioData 1 10 initState).1).stopCalls) ∧
      (stopAudioOutput 20 (handleAudioData 1 10 initState).1).audioSources = [] ∧
      (stopAudioOutput 20 (handleAudioData 1 10 initState).1).nextStartTime = 20 ∧
      (handleAudioData 2 21 (stopAudioOutput 20 (handleAudioData 1 10 initState).1)).2
        = some 21 :=
  claim3_interrupt_clears_and_resets (handleAudioData 1 10 initState).1 20 21 2
    (by norm_num [handleAudioData, initState]) (by norm_num [handleAudioData, initState])
    (by norm_num)

/-- Claim C4 counterexample: `disconnect` (the `reset()` teardown) is
not `interrupt()` followed by zeroing the cursor.  On the reachable
state holding one scheduled source, `disconnect` leaves the active set
non-empty (the code never clears `audioSources` on teardown), so it
differs from `interruptThenZero`, and in particular the claimed
"active set is empty" conjunct is false. -/
theorem claim4_counterexample :
    (disconnect (handleAudioData 5 10 initState).1).audioSources ≠ [] ∧
    (disconnect (handleAudioData 5 10 initState).1).stopCalls = [] ∧
    disconnect (handleAudioData 5 10 initState).1
      ≠ interruptThenZero 11 (handleAudioData 5 10 initState).1 := by
  refine ⟨?_, rfl, ?_⟩ <;>
    norm_num [disconnect, interruptThenZero, stopAudioOutput, handleAudioData,
      initState, max_def]

/-- Claim C4 amended: `reset()` (the `disconnect` path) agrees with
interrupt-then-zero on the cursor — both leave `nextStartTime` = 0 —
but unlike interrupt-then-zero it calls `stop` on no handle and leaves
the active set exactly as it was. -/
theorem claim4_reset_vs_interrupt_then_zero :
    ∀ (s : SchedulerState) (now : ℚ),
      (disconnect s).nextStartTime = 0 ∧
      (interruptThenZero now s).nextStartTime = 0 ∧
      (disconnect s).audioSources = s.audioSources ∧
      (disconnect s).stopCalls = s.stopCalls ∧
      (interruptThenZero now s).audioSources = [] ∧
      (interruptThenZero now s).stopCalls = s.stopCalls ++ s.audioSources := by
  intro s now
  exact ⟨rfl, rfl, rfl, rfl, rfl, rfl⟩

/-- Claim C5 counterexample: an enqueue arriving after `reset()` is
not a no-op, under either resolution of the unresolved closed-context
continuation.  On the concrete post-teardown state (one segment
enqueued at clock 10, then `disconnect`), a further enqueue at clock
12 mutates the state: teardown leaves `outputAudioContext` non-null,
the line-105 guard only checks non-nullness, and line 106 runs
unconditionally, so the cursor moves from 0 to 12 if the handler then
aborts, and to 13 if it runs lines 107-121 to completion. -/
theorem claim5_counterexample :
    (disconnect (handleAudioData 1 10 initState).1).nextStartTime = 0 ∧
    (handleAudioDataClosed false 1 12 (disconnect (handleAudioData 1 10 initState).1)).1
        ≠ disconnect (handleAudioData 1 10 initState).1 ∧
    (handleAudioDataClosed false 1 12
        (disconnect (handleAudioData 1 10 initState).1)).1.nextStartTime = 12 ∧
    (handleAudioDataClosed true 1 12 (disconnect (handleAudioData 1 10 initState).1)).1
        ≠ disconnect (handleAudioData 1 10 initState).1 ∧
    (handleAudioDataClosed true 1 12
        (disconnect (handleAudioData 1 10 initState).1)).1.nextStartTime = 13 := by
  refine ⟨rfl, ?_, ?_, ?_, ?_⟩ <;>
    norm_num [handleAudioDataClosed, handleAudioData, disconnect, initState, max_def]

/-- Claim C5 amended: after `reset()`, a subsequent enqueue is not
silently ignored: the line-105 guard only checks that the output
context field is set, which teardown leaves in place, so line 106
still advances the cursor to at least `max 0 now`, and whenever the
clock is positive the state is mutated.  This holds under both
resolutions of the continuation on the closed context (handler aborts
after line 106, or runs to completion and additionally appends the
node and adds the duration). -/
theorem claim5_enqueue_after_reset_mutates :
    ∀ (completes : Bool) (s : SchedulerState) (now d : ℚ),
      s.hasOutputCtx = true → 0 ≤ d →
      max 0 now ≤ (handleAudioDataClosed completes d now (disconnect s)).1.nextStartTime ∧
      (0 < now →
        (handleAudioDataClosed completes d now (disconnect s)).1 ≠ disconnect s) := by
  intro completes s now d h1 hd
  have hval : (handleAudioDataClosed completes d now (disconnect s)).1.nextStartTime
      = max 0 now + cond completes d 0 := by
    cases completes <;> simp [handleAudioDataClosed, disconnect, h1]
  have hpos : 0 ≤ cond completes d 0 := by
    cases completes <;> simp [hd]
  constructor
  · rw [hval]
    exact le_add_of_nonneg_right hpos
  · intro hnow heq
    have hts := congrArg SchedulerState.nextStartTime heq
    rw [hval] at hts
    have h0 : (disconnect s).nextStartTime = 0 := rfl
    rw [h0] at hts
    have hmax : now ≤ max 0 now := le_max_right _ _
    linarith

/-- Claim C5 amended witness: instantiated at the post-teardown state
of the counterexample, with the continuation that completes. -/
theorem claim5_enqueue_after_reset_mutates_witness :
    max 0 12 ≤ (handleAudioDataClosed true 1 12
        (disconnect (handleAudioData 1 10 initState).1)).1.nextStartTime ∧
    ((0 : ℚ) < 12 →
      (handleAudioDataClosed true 1 12
          (disconnect (handleAudioData 1 10 initState).1)).1
        ≠ disconnect (handleAudioData 1 10 initState).1) :=
  claim5_enqueue_after_reset_mutates true (handleAudioData 1 10 initState).1 12 1
    (by norm_num [handleAudioData, initState]) (by norm_num)

/-- Claim C6: the cursor `nextStartTime` is non-decreasing across
every operation other than interrupt and reset: an enqueue of a
non-negative duration, a completion callback, and a (re)connect never
decrease it. -/
theorem claim6_cursor_monotone :
    ∀ (s : SchedulerState) (now d : ℚ) (id : Nat), 0 ≤ d →
      s.nextStartTime ≤ (step s now (Event.enqueue d)).nextStartTime ∧
      s.nextStartTime ≤ (step s now (Event.ended id)).nextStartTime ∧
      s.nextStartTime ≤ (step s now Event.connect).nextStartTime := by
  intro s now d id hd
  refine ⟨?_, le_of_eq rfl, le_of_eq rfl⟩
  by_cases h1 : s.hasOutputCtx = true
  · by_cases h2 : s.ctxClosed = true
    · simp [step, handleAudioData, h1, h2]
    · have h2' : s.ctxClosed = false := by simpa using h2
      simp [step, handleAudioData, h1, h2']
      exact le_add_of_le_of_nonneg (le_max_left _ _) hd
  · have h1' : s.hasOutputCtx = false := by simpa using h1
    simp [step, handleAudioData, h1']

/-- Claim C6 witness: instantiated at the initial state, clock 5,
duration 2, node id 0. -/
theorem claim6_cursor_monotone_witness :
    initState.nextStartTime ≤ (step initState 5 (Event.enqueue 2)).nextStartTime ∧
    initState.nextStartTime ≤ (step initState 5 (Event.ended 0)).nextStartTime ∧
    initState.nextStartTime ≤ (step initState 5 Event.connect).nextStartTime :=
  claim6_cursor_monotone initState 5 2 0 (by norm_num)

/-- An event is within the scope of the no-overlap invariant when it
is not the `reset` teardown and enqueued durations are non-negative
(buffer durations always are). -/
def okEvent : Event → Bool
  | Event.enqueue d => decide (0 ≤ d)
  | Event.reset => false
  | _ => true

/-- No two sources in the list have overlapping playback intervals. -/
def pairwiseDisjoint (l : List Source) : Prop :=
  l.Pairwise (fun a b =>
    a.startAt + a.duration ≤ b.startAt ∨ b.startAt + b.duration ≤ a.startAt)

/-- Invariant: the active sources form a timeline ordered by the order
they entered the set, and every active interval ends no later than the
cursor. -/
def goodState (s : SchedulerState) : Prop :=
  s.audioSources.Pairwise (fun a b => a.startAt + a.duration ≤ b.startAt) ∧
  ∀ src ∈ s.audioSources, src.startAt + src.duration ≤ s.nextStartTime

lemma goodState_step {s : SchedulerState} {now : ℚ} {e : Event}
    (he : okEvent e = true) (h : goodState s) : goodState (step s now e) := by
  obtain ⟨hpw, hbd⟩ := h
  cases e with
  | enqueue d =>
    have hd : 0 ≤ d := by simpa [okEvent] using he
    by_cases h1 : s.hasOutputCtx = true
    · by_cases h2 : s.ctxClosed = true
      · constructor
        · simpa [step, handleAudioData, h1, h2] using hpw
        · intro src hsrc
          simp [step, handleAudioData, h1, h2] at hsrc ⊢
          exact Or.inl (hbd src hsrc)
      · have h2' : s.ctxClosed = false := by simpa using h2
        constructor
        · simp only [step, handleAudioData, h1, h2', if_true, if_false,
            Bool.false_eq_true, ite_false, ite_true]
          rw [List.pairwise_append]
          refine ⟨hpw, List.pairwise_singleton _ _, ?_⟩
          intro a ha b hb
          simp at hb
          subst hb
          exact le_trans (hbd a ha) (le_max_left _ _)
        · intro src hsrc
          simp [step, handleAudioData, h1, h2'] at hsrc ⊢
          rcases hsrc with hsrc | hsrc
          · exact le_add_of_le_of_nonneg
              (le_trans (hbd src hsrc) (le_max_left _ _)) hd
          · subst hsrc
            simp [hd]
    · have h1' : s.hasOutputCtx = false := by simpa using h1
      constructor
      · simpa [step, handleAudioData, h1'] using hpw
      · intro src hsrc
        simp [step, handleAudioData, h1'] at hsrc ⊢
        exact hbd src hsrc
  | ended id =>
    constructor
    · exact hpw.sublist (List.filter_sublist _)
    · intro src hsrc
      exact hbd src (List.mem_of_mem_filter hsrc)
  | interrupt =>
    exact ⟨by simp [step, stopAudioOutput], by simp [step, stopAudioOutput]⟩
  | reset => simp [okEvent] at he
  | connect =>
    exact ⟨hpw, hbd⟩

lemma goodState_exec {s : SchedulerState} {tr : List (ℚ × Event)}
    (htr : ∀ p ∈ tr, okEvent p.2 = true) (h : goodState s) :
    goodState (execTrace s tr) := by
  induction tr generalizing s with
  | nil => exact h
  | cons p tr ih =>
    exact ih (fun q hq => htr q (List.mem_cons_of_mem p hq))
      (goodState_step (htr p (List.mem_cons_self p tr)) h)

/-- Claim C7 counterexample: the spec invariant fails on the code.
First, after a single enqueue of duration 1 at clock 10, the cursor is
11; once the device clock reads 12 (a legal monotone advance), the
cursor is strictly below the current playback time, refuting
"the cursor is always ≥ the device current playback time".  Second,
the reachable trace enqueue(5)@10, reset@11, connect, enqueue(1)@12
leaves two sources with intervals [10,15) and [12,13) in the active
set: teardown never removed the first one, so "segments never
overlap" also fails on a reachable state. -/
theorem claim7_counterexample :
    ¬ (pairwiseDisjoint (execTrace initState [(10, Event.enqueue 1)]).audioSources ∧
        12 ≤ (execTrace initState [(10, Event.enqueue 1)]).nextStartTime) ∧
    ¬ pairwiseDisjoint (execTrace initState
        [(10, Event.enqueue 5), (11, Event.reset), (11, Event.connect),
          (12, Event.enqueue 1)]).audioSources := by
  constructor
  · intro hcl
    have := hcl.2
    norm_num [execTrace, step, handleAudioData, initState, max_def] at this
  · intro hcl
    norm_num [execTrace, step, handleAudioData, disconnect, connect, initState,
      pairwiseDisjoint, max_def] at hcl

/-- Claim C7 amended: in every state reachable by a trace that
contains no `reset` teardown (durations being non-negative, as buffer
durations are), the active sources are pairwise non-overlapping; and
independently, every start time actually handed to `source.start` is ≥
the device clock at the moment of the call (segments are never
scheduled into the past), although the stored cursor itself may fall
behind the advancing clock between calls. -/
theorem claim7_no_overlap_amended :
    (∀ tr : List (ℚ × Event), (∀ p ∈ tr, okEvent p.2 = true) →
      pairwiseDisjoint (execTrace initState tr).audioSources) ∧
    (∀ (s : SchedulerState) (d now a : ℚ),
      (handleAudioData d now s).2 = some a → now ≤ a) := by
  constructor
  · intro tr htr
    have hg : goodState (execTrace initState tr) :=
      goodState_exec htr ⟨List.Pairwise.nil, by simp [initState]⟩
    exact hg.1.imp (fun hab => Or.inl hab)
  · intro s d now a hsome
    by_cases h1 : s.hasOutputCtx = true
    · by_cases h2 : s.ctxClosed = true
      · simp [handleAudioData, h1, h2] at hsome
      · have h2' : s.ctxClosed = false := by simpa using h2
        simp [handleAudioData, h1, h2'] at hsome
        rw [← hsome]
        exact le_max_right _ _
    · have h1' : s.hasOutputCtx = false := by simpa using h1
      simp [handleAudioData, h1'] at hsome

/-- Claim C7 amended witness: the reset-free trace
enqueue(1)@10, enqueue(2)@10, ended(0)@13, interrupt@14, connect,
enqueue(3)@15 yields a disjoint active set, and the enqueue at clock
12 over cursor 11 starts at 12 ≥ 12. -/
theorem claim7_no_overlap_amended_witness :
    pairwiseDisjoint (execTrace initState
      [(10, Event.enqueue 1), (10, Event.enqueue 2), (13, Event.ended 0),
        (14, Event.interrupt), (14, Event.connect), (15, Event.enqueue 3)]).audioSources ∧
    (12 : ℚ) ≤ 12 :=
  ⟨claim7_no_overlap_amended.1 _ (by decide),
    claim7_no_overlap_amended.2 { initState with nextStartTime := 11 } 1 12 12
      (by norm_num [handleAudioData, initState, max_def])⟩

/-- The observable status of an `AudioBufferSourceNode` as far as the
stop-handling of lines 139-141 is concerned. -/
inductive SourceStatus where
  | playing
  | finished
  | stopped
  deriving DecidableEq, Repr

/-- One iteration of the `forEach` body at line 140:
`try { source.stop(); } catch (e) {}`.  The underlying
`AudioBufferSourceNode.stop` is browser code, not part of this
repository, so the embedding is parametric in its behaviour `prim`,
which is allowed to throw; the `catch` swallows any error, leaving the
node status as it was. -/
def tryStopNode (prim : SourceStatus → Except String SourceStatus)
    (st : SourceStatus) : SourceStatus :=
  match prim st with
  | Except.ok st2 => st2
  | Except.error _ => st

/-- Stopping the node with id `i` inside a world that maps node ids to
statuses, as line 140 does for one member of the set. -/
def stopNodeIn (prim : SourceStatus → Except String SourceStatus)
    (world : List (Nat × SourceStatus)) (i : Nat) : List (Nat × SourceStatus) :=
  world.map (fun p => if p.1 = i then (p.1, tryStopNode prim p.2) else p)

/-- Claim C8: stopping a handle whose playback already completed
raises no error and leaves every other handle untouched.  The theorem
is parametric in the underlying stop primitive: even if that primitive
throws on a finished node, the `try`/`catch` of line 140 swallows the
error (the operation is a total function of the world, and the target
node keeps its status), and every entry for a different node id is
exactly preserved. -/
theorem claim8_stop_finished_harmless :
    ∀ (prim : SourceStatus → Except String SourceStatus)
      (world : List (Nat × SourceStatus)) (i : Nat),
      (∀ p : Nat × SourceStatus, p.1 ≠ i →
        (p ∈ stopNodeIn prim world i ↔ p ∈ world)) ∧
      (∀ e, prim SourceStatus.finished = Except.error e →
        (∀ st, (i, st) ∈ world → st = SourceStatus.finished) →
        stopNodeIn prim world i = world) := by
  intro prim world i
  constructor
  · intro p hp
    constructor
    · intro hmem
      rcases List.mem_map.1 hmem with ⟨q, hq, hfq⟩
      by_cases hqi : q.1 = i
      · rw [if_pos hqi] at hfq
        exact absurd (by rw [← hfq]; exact hqi) hp
      · rw [if_neg hqi] at hfq
        exact hfq ▸ hq
    · intro hmem
      refine List.mem_map.2 ⟨p, hmem, ?_⟩
      rw [if_neg hp]
  · intro e herr hfin
    have : ∀ p ∈ world,
        (fun p : Nat × SourceStatus =>
          if p.1 = i then (p.1, tryStopNode prim p.2) else p) p = id p := by
      intro p hpmem
      by_cases hpi : p.1 = i
      · have hst : p.2 = SourceStatus.finished := by
          apply hfin
          have : p = (i, p.2) := by
            rw [← hpi]
          exact this ▸ hpmem
        simp only [if_pos hpi, hst, tryStopNode, herr, id_eq]
        rw [← hst]
      · simp [if_neg hpi]
    rw [stopNodeIn, List.map_congr_left this, List.map_id]

/-- Claim C8 witness: a primitive that throws `InvalidStateError` on
finished nodes, a world with one playing and one finished node, and a
stop aimed at the finished node: the playing entry is preserved and
the whole world is unchanged. -/
theorem claim8_stop_finished_harmless_witness :
    ((0, SourceStatus.playing) ∈ stopNodeIn
        (fun st => match st with
          | SourceStatus.finished => Except.error ("InvalidStateError")
          | _ => Except.ok SourceStatus.stopped)
        [(0, SourceStatus.playing), (1, SourceStatus.finished)] 1 ↔
      (0, SourceStatus.playing) ∈
        [(0, SourceStatus.playing), (1, SourceStatus.finished)]) ∧
    stopNodeIn
        (fun st => match st with
          | SourceStatus.finished => Except.error ("InvalidStateError")
          | _ => Except.ok SourceStatus.stopped)
        [(0, SourceStatus.playing), (1, SourceStatus.finished)] 1
      = [(0, SourceStatus.playing), (1, SourceStatus.finished)] :=
  ⟨(claim8_stop_finished_harmless _ _ 1).1 (0, SourceStatus.playing) (by decide),
    (claim8_stop_finished_harmless _ _ 1).2 ("InvalidStateError") rfl
      (by intro st h; simpa using h)⟩

end GeminiLive

namespace MapService

/-- The character set matched by the regex escape `\s` (and removed by
`String.prototype.trim`): WhiteSpace and LineTerminator code points. -/
def isJsWs (c : Char) : Bool :=
  c = ' ' || c = '\t' || c = '\n' || c = '\r' ||
  c = '\x0b' || c = '\x0c' || c = '\u00A0' || c = '\u1680' ||
  (decide ('\u2000' ≤ c) && decide (c ≤ '\u200A')) ||
  c = '\u2028' || c = '\u2029' || c = '\u202F' || c = '\u205F' ||
  c = '\u3000' || c = '\uFEFF'

/-- The character set matched by `.` in a regex without the `s` flag:
every character except a line terminator. -/
def isDotChar (c : Char) : Bool :=
  !(c = '\n' || c = '\r' || c = '\u2028' || c = '\u2029')

/-- The character class `[\d.-]` of the marker regex. -/
def isClassChar (c : Char) : Bool :=
  c.isDigit || c = '.' || c = '-'

/-- `text.split(newline)` (line 61 of the map service): split at every
newline character; the empty text yields one empty line. -/
def splitNl : List Char → List (List Char)
  | [] => [[]]
  | c :: rest =>
    let r := splitNl rest
    if c = '\n' then [] :: r
    else
      match r with
      | [] => [[c]]
      | l :: ls => (c :: l) :: ls

/-- Backtracking combinator for a greedy `\s*`: consume the longest
whitespace run first, giving back one character at a time on failure
of the continuation. -/
def tryWsStar {α : Type} (cs : List Char) (k : List Char → Option α) : Option α :=
  (List.range ((cs.takeWhile isJsWs).length + 1)).reverse.findSome?
    (fun j => k (cs.drop j))

/-- Backtracking combinator for the lazy `(.+?)` group: capture one
character first, extending one character at a time on failure of the
continuation; every capture is a run of `.`-matchable characters. -/
def tryDotPlusLazy {α : Type} (cs : List Char)
    (k : List Char → List Char → Option α) : Option α :=
  (List.range (cs.takeWhile isDotChar).length).findSome?
    (fun t0 => k (cs.take (t0 + 1)) (cs.drop (t0 + 1)))

/-- Backtracking combinator for a greedy `([\d.-]+)` group: capture
the longest class run first, giving back one character at a time on
failure of the continuation, never capturing less than one. -/
def tryClassPlus {α : Type} (cs : List Char)
    (k : List Char → List Char → Option α) : Option α :=
  (List.range (cs.takeWhile isClassChar).length).reverse.findSome?
    (fun t0 => k (cs.take (t0 + 1)) (cs.drop (t0 + 1)))

/-- Literal fragment of the pattern: consume it exactly or fail. -/
def tryLit {α : Type} (lit cs : List Char) (k : List Char → Option α) : Option α :=
  if cs.take lit.length = lit then k (cs.drop lit.length) else none

/-- The final greedy `(.*)` group: nothing follows it in the pattern,
so it captures the maximal run of `.`-matchable characters. -/
def dotStarAll (cs : List Char) : List Char :=
  cs.takeWhile isDotChar

/-- One anchored match attempt of the marker regex (line 62)

  MARKER: then s-star (.+?) s-star pipe s-star ([d.-]+) s-star pipe
  s-star ([d.-]+) s-star pipe s-star (.*)

at the head of `cs`, with the backtracking priority of a JS regex
engine: earlier subpattern alternatives are reconsidered only after
all later ones are exhausted.  Returns the four capture groups. -/
def matchMarkerAt (cs : List Char) :
    Option (List Char × List Char × List Char × List Char) :=
  tryLit ("MARKER:".toList) cs (fun r0 =>
  tryWsStar r0 (fun r1 =>
  tryDotPlusLazy r1 (fun g1 r2 =>
  tryWsStar r2 (fun r3 =>
  tryLit (['|']) r3 (fun r4 =>
  tryWsStar r4 (fun r5 =>
  tryClassPlus r5 (fun g2 r6 =>
  tryWsStar r6 (fun r7 =>
  tryLit (['|']) r7 (fun r8 =>
  tryWsStar r8 (fun r9 =>
  tryClassPlus r9 (fun g3 r10 =>
  tryWsStar r10 (fun r11 =>
  tryLit (['|']) r11 (fun r12 =>
  tryWsStar r12 (fun r13 =>
  some (g1, g2, g3, dotStarAll r13)))))))))))))))

/-- `line.match(markerRegex)` (line 65): try the pattern at every
start position from the left; the leftmost position with a match
wins. -/
def matchMarker : List Char → Option (List Char × List Char × List Char × List Char)
  | [] => none
  | c :: rest =>
    match matchMarkerAt (c :: rest) with
    | some g => some g
    | none => matchMarker rest

/-- `String.prototype.trim` (lines 73 and 76). -/
def jsTrim (cs : List Char) : String :=
  String.mk (((cs.dropWhile isJsWs).reverse.dropWhile isJsWs).reverse)

/-- Value of a digit run, most significant first. -/
def digitsVal (cs : List Char) : ℚ :=
  cs.foldl (fun a c => a * 10 + ((c.toNat - 48 : Nat) : ℚ)) 0

/-- The syntactic part of `parseFloat` (lines 67-68): skip leading
whitespace, read an optional sign, then the longest prefix of the form
digits, digits-dot-digits, digits-dot, or dot-digits; anything else is
NaN, modelled as `none`.  Returns the sign and the integer and
fraction digit runs.  The exponent and Infinity forms of the full
grammar cannot occur here: the argument is a capture of `[\d.-]+`,
which contains no letters, so the model covers exactly the digit, dot
and sign forms. -/
def parseFloatParts (cs : List Char) : Option (Bool × List Char × List Char) :=
  let t := cs.dropWhile isJsWs
  let nu : Bool × List Char :=
    match t with
    | '+' :: r => (false, r)
    | '-' :: r => (true, r)
    | r => (false, r)
  let neg := nu.1
  let u := nu.2
  let ip := u.takeWhile Char.isDigit
  let rest := u.drop ip.length
  if ip.isEmpty then
    match rest with
    | '.' :: r2 =>
      let fp := r2.takeWhile Char.isDigit
      if fp.isEmpty then none else some (neg, ip, fp)
    | _ => none
  else
    match rest with
    | '.' :: r2 => some (neg, ip, r2.takeWhile Char.isDigit)
    | _ => some (neg, ip, [])

/-- The value of a parsed sign/integer-digits/fraction-digits triple.
The numeric value is idealised as an exact rational rather than the
nearest binary double; no claim depends on rounding, only on whether
parsing succeeds and on the decimal value parsed. -/
def floatValue : Bool × List Char × List Char → ℚ
  | (neg, ip, fp) =>
    cond neg (-1) 1 * (digitsVal ip + digitsVal fp / (10 : ℚ) ^ fp.length)

/-- `parseFloat`: the parsed numeric prefix valued as a rational, or
`none` for NaN. -/
def parseFloatQ (s : List Char) : Option ℚ :=
  (parseFloatParts s).map floatValue

/-- A parsed place record (`MapPlace`, lines 5-10). -/
structure MapPlace where
  title : String
  lat : ℚ
  lng : ℚ
  description : String
  deriving DecidableEq, Repr

/-- The result record (`MapResult`, lines 12-15). -/
structure MapResult where
  text : String
  places : List MapPlace
  deriving DecidableEq, Repr

/-- One iteration of the parsing loop (lines 64-80): match the line
against the marker regex; on a match, parse the two coordinate
captures with `parseFloat` and, when both are numbers, push the
record; otherwise leave the accumulator untouched. -/
def markerLineStep (places : List MapPlace) (line : List Char) : List MapPlace :=
  match matchMarker line with
  | none => places
  | some (g1, g2, g3, g4) =>
    match parseFloatQ g2, parseFloatQ g3 with
    | some lat, some lng =>
      places ++ [{ title := jsTrim g1, lat := lat, lng := lng,
                   description := jsTrim g4 }]
    | _, _ => places

/-- The whole parsing pass of `askForDirections` (lines 60-80). -/
def extractPlaces (text : String) : List MapPlace :=
  (splitNl text.data).foldl markerLineStep []

/-- Declarative per-line reading of the loop body: the place record a
line contributes, if any. -/
def placeOfLine (line : List Char) : Option MapPlace :=
  match matchMarker line with
  | none => none
  | some (g1, g2, g3, g4) =>
    match parseFloatQ g2, parseFloatQ g3 with
    | some lat, some lng =>
      some { title := jsTrim g1, lat := lat, lng := lng,
             description := jsTrim g4 }
    | _, _ => none

/-- The fixed text of the catch branch (line 85). -/
def fallbackText : String := "Sorry, I couldn\u0027t fetch directions at this moment."

/-- The default used when `response.text` is undefined or empty
(line 57; the JS or-operator treats the empty string as falsy). -/
def defaultText : String := "I found some information."

/-- `askForDirections` (lines 17-87), parametric in the outcome of the
`generateContent` call, the one step owned by the remote SDK: it may
fail (any thrown error reaches the catch of line 83) or return a
response whose `text` may be absent.  Everything else the function
does is the pure parsing modelled above, so the function always
returns a `MapResult`. -/
def askForDirections (outcome : Except Unit (Option String)) : MapResult :=
  match outcome with
  | Except.error _ => { text := fallbackText, places := [] }
  | Except.ok t? =>
    let text :=
      match t? with
      | none => defaultText
      | some s => if s = "" then defaultText else s
    { text := text, places := extractPlaces text }

lemma markerLineStep_eq (acc : List MapPlace) (line : List Char) :
    markerLineStep acc line = acc ++ (placeOfLine line).toList := by
  cases hm : matchMarker line with
  | none => simp [markerLineStep, placeOfLine, hm]
  | some g =>
    obtain ⟨g1, g2, g3, g4⟩ := g
    cases h2 : parseFloatQ g2 with
    | none => simp [markerLineStep, placeOfLine, hm, h2]
    | some lat =>
      cases h3 : parseFloatQ g3 with
      | none => simp [markerLineStep, placeOfLine, hm, h2, h3]
      | some lng => simp [markerLineStep, placeOfLine, hm, h2, h3]

lemma foldl_markerLineStep (ls : List (List Char)) (acc : List MapPlace) :
    ls.foldl markerLineStep acc = acc ++ ls.filterMap placeOfLine := by
  induction ls generalizing acc with
  | nil => simp
  | cons l ls ih =>
    rw [List.foldl_cons, ih, markerLineStep_eq]
    cases h : placeOfLine l <;> simp [h, List.filterMap_cons]

lemma mem_extractPlaces {text : String} {p : MapPlace}
    (hp : p ∈ extractPlaces text) :
    ∃ (line g1 g2 g3 g4 : List Char),
      line ∈ splitNl text.data ∧
      matchMarker line = some (g1, g2, g3, g4) ∧
      parseFloatQ g2 = some p.lat ∧ parseFloatQ g3 = some p.lng ∧
      p.title = jsTrim g1 ∧ p.description = jsTrim g4 := by
  rw [extractPlaces, foldl_markerLineStep, List.nil_append] at hp
  rcases List.mem_filterMap.1 hp with ⟨line, hline, hpl⟩
  cases hm : matchMarker line with
  | none => simp [placeOfLine, hm] at hpl
  | some g =>
    obtain ⟨g1, g2, g3, g4⟩ := g
    cases h2 : parseFloatQ g2 with
    | none => simp [placeOfLine, hm, h2] at hpl
    | some lat =>
      cases h3 : parseFloatQ g3 with
      | none => simp [placeOfLine, hm, h2, h3] at hpl
      | some lng =>
        simp [placeOfLine, hm, h2, h3] at hpl
        subst hpl
        exact ⟨line, g1, g2, g3, g4, hline, hm, h2, h3, rfl, rfl⟩

/-- Claim C9: the route parsing is a single pass over the newline-split
lines of the text: the result equals, in order, the records of exactly
those lines on which the marker pattern matches with both coordinate
captures parsing as numbers — each such line contributing the record
built from its trimmed name capture, its parsed coordinates and its
trimmed description capture — while every other line contributes
nothing. -/
theorem claim9_single_pass_parse :
    (∀ text : String,
      extractPlaces text = (splitNl text.data).filterMap placeOfLine) ∧
    (∀ (line g1 g2 g3 g4 : List Char) (lat lng : ℚ),
      matchMarker line = some (g1, g2, g3, g4) →
      parseFloatQ g2 = some lat → parseFloatQ g3 = some lng →
      placeOfLine line = some { title := jsTrim g1, lat := lat, lng := lng,
                                description := jsTrim g4 }) ∧
    (∀ line : List Char, matchMarker line = none → placeOfLine line = none) := by
  refine ⟨?_, ?_, ?_⟩
  · intro text
    have h := foldl_markerLineStep (splitNl text.data) []
    simpa [extractPlaces] using h
  · intro line g1 g2 g3 g4 lat lng hm h2 h3
    simp [placeOfLine, hm, h2, h3]
  · intro line hm
    simp [placeOfLine, hm]

lemma parseFloatQ_one : parseFloatQ ('1' :: []) = some 1 := by
  have hp : parseFloatParts ('1' :: []) = some (false, '1' :: [], []) := by decide
  have hc : ('1'.toNat - 48 : Nat) = 1 := by decide
  rw [parseFloatQ, hp]
  simp [floatValue, digitsVal, hc]

lemma parseFloatQ_two : parseFloatQ ('2' :: []) = some 2 := by
  have hp : parseFloatParts ('2' :: []) = some (false, '2' :: [], []) := by decide
  have hc : ('2'.toNat - 48 : Nat) = 2 := by decide
  rw [parseFloatQ, hp]
  simp [floatValue, digitsVal, hc]

/-- Claim C9 witness: instantiated on a concrete marker line and a
concrete non-matching line. -/
theorem claim9_single_pass_parse_witness :
    extractPlaces ("intro\nMARKER: A | 1 | 2 | d")
        = (splitNl (("intro\nMARKER: A | 1 | 2 | d") : String).data).filterMap placeOfLine ∧
    placeOfLine (("MARKER: A | 1 | 2 | d") : String).toList
        = some { title := jsTrim (("A") : String).toList, lat := 1, lng := 2,
                 description := jsTrim (("d") : String).toList } ∧
    placeOfLine (("hello") : String).toList = none :=
  ⟨claim9_single_pass_parse.1 _,
    claim9_single_pass_parse.2.1 _ _ _ _ _ 1 2 rfl parseFloatQ_one parseFloatQ_two,
    claim9_single_pass_parse.2.2 _ rfl⟩

/-- Claim C10: `askForDirections` never throws.  In the embedding it is
a total function into `MapResult`, parametric in the outcome of the one
fallible external step; when that step fails, the result is exactly the
fixed fallback text with an empty place list; and every place in any
returned result carries coordinates obtained from a successful
`parseFloat` of the corresponding regex captures of some line of the
returned text (so they are never NaN). -/
theorem claim10_total_with_fallback :
    (∀ e : Unit, askForDirections (Except.error e)
        = { text := fallbackText, places := [] }) ∧
    (∀ (o : Except Unit (Option String)) (p : MapPlace),
      p ∈ (askForDirections o).places →
      ∃ (line g1 g2 g3 g4 : List Char),
        line ∈ splitNl (askForDirections o).text.data ∧
        matchMarker line = some (g1, g2, g3, g4) ∧
        parseFloatQ g2 = some p.lat ∧ parseFloatQ g3 = some p.lng ∧
        p.title = jsTrim g1 ∧ p.description = jsTrim g4) := by
  constructor
  · intro e
    rfl
  · intro o p hp
    cases o with
    | error e => simp [askForDirections] at hp
    | ok t? => exact mem_extractPlaces hp

/-- Claim C10 witness: a successful model response holding one marker
line yields a place whose coordinates come from successful
`parseFloat` runs on the captures of that line. -/
theorem claim10_total_with_fallback_witness :
    ∃ (line g1 g2 g3 g4 : List Char),
      line ∈ splitNl
        (askForDirections (Except.ok (some ("MARKER: A | 1 | 2 | d")))).text.data ∧
      matchMarker line = some (g1, g2, g3, g4) ∧
      parseFloatQ g2
          = some ({ title := "A", lat := 1, lng := 2, description := "d" } : MapPlace).lat ∧
      parseFloatQ g3
          = some ({ title := "A", lat := 1, lng := 2, description := "d" } : MapPlace).lng ∧
      ({ title := "A", lat := 1, lng := 2, description := "d" } : MapPlace).title
          = jsTrim g1 ∧
      ({ title := "A", lat := 1, lng := 2, description := "d" } : MapPlace).description
          = jsTrim g4 :=
  claim10_total_with_fallback.2 (Except.ok (some ("MARKER: A | 1 | 2 | d")))
    { title := "A", lat := 1, lng := 2, description := "d" } (by
      have hm : matchMarker (("MARKER: A | 1 | 2 | d" : String)).data
          = some ('A' :: [], '1' :: [], '2' :: [], 'd' :: []) := by decide
      have hsplit : splitNl (("MARKER: A | 1 | 2 | d" : String)).data
          = [(("MARKER: A | 1 | 2 | d" : String)).data] := by decide
      have ha : jsTrim ('A' :: []) = "A" := by decide
      have hd : jsTrim ('d' :: []) = "d" := by decide
      have hpl : placeOfLine (("MARKER: A | 1 | 2 | d" : String)).data
          = some { title := "A", lat := 1, lng := 2, description := "d" } := by
        simp [placeOfLine, hm, parseFloatQ_one, parseFloatQ_two, ha, hd]
      show ({ title := "A", lat := 1, lng := 2, description := "d" } : MapPlace)
          ∈ extractPlaces ("MARKER: A | 1 | 2 | d")
      rw [extractPlaces, hsplit, List.foldl_cons, List.foldl_nil,
        markerLineStep_eq, hpl]
      simp)

end MapService
